import Mathlib

/-!
# Verification of `inventory_system.py`

Shallow embedding of the inventory module. The module keeps one
process-wide mapping `stock_data` from item name (string) to a numeric
quantity; Python's `int`/`float` quantities are modelled as exact
rationals (`ℚ`), and the insertion-ordered `dict` is modelled as an
association list whose well-formed states have pairwise-distinct keys.

Python `dict` operations used by the source:
* `d.get(k, 0)`     → `lookup?` with `Option.getD 0`;
* `d[k] = v`        → `setKey` (replaces the value in place when the key
  is present, keeping its position; appends otherwise);
* `del d[k]`        → `delKey`;
* `d.items()`       → the list itself, in insertion order;
* `d.clear()` then repopulating → building a fresh list.

Raised exceptions are modelled with `Except`: every `raise` in
`add_item` / `remove_item` / `get_qty` / `check_low_items` occurs before
any mutation of `stock_data`, so an `Except.error` result corresponds to
a call that left the store exactly as it was (`tryOp` below).

File I/O: `json.dump` followed by `json.load` is modelled as the
identity on a JSON value tree `JVal` (exact for `int`; Python `float`
serialization round-trips via `repr`).  `load_data`'s three recovered
failure shapes are the constructors of `FileRead`.
-/

/-- A quantity as stored in `stock_data` (Python `int` or `float`,
modelled exactly). -/
abbrev Qty := ℚ

/-- The inventory mapping, in insertion order. -/
abbrev Inventory := List (String × Qty)

/-- Exceptions raised by the module: `TypeError`, `ValueError`,
`KeyError`. -/
inductive InvError where
  | typeError (msg : String)
  | valueError (msg : String)
  | keyError (msg : String)
deriving Repr, DecidableEq

/-- `d.get(k, 0)` without the default: the value stored at key `k`. -/
def lookup? : Inventory → String → Option Qty
  | [], _ => none
  | p :: rest, k => if p.1 = k then some p.2 else lookup? rest k

/-- `d[k] = v`: replace the value at the first occurrence of `k`
(keeping its position, as a Python dict does), or append `(k, v)` when
`k` is absent. -/
def setKey : Inventory → String → Qty → Inventory
  | [], k, v => [(k, v)]
  | p :: rest, k, v => if p.1 = k then (k, v) :: rest else p :: setKey rest k v

/-- `del d[k]`: remove the first occurrence of key `k`. -/
def delKey : Inventory → String → Inventory
  | [], _ => []
  | p :: rest, k => if p.1 = k then rest else p :: delKey rest k

/-- Well-formedness of a dict-as-list: keys are pairwise distinct. -/
def KeysNodup (inv : Inventory) : Prop := (inv.map Prod.fst).Nodup

/-- `add_item(item, qty)` (lines 21-49).  The `isinstance` checks on
`item` and `qty` are subsumed by the Lean types; `not item` is the
empty-string test.  The log side effect does not touch `stock_data` and
is omitted. -/
def add_item (item : String) (qty : Qty) (inv : Inventory) :
    Except InvError Inventory :=
  if item = "" then
    .error (.typeError "item must be a non-empty string")
  else if qty < 0 then
    .error (.valueError "qty must be non-negative; use remove_item to decrement stock")
  else
    .ok (setKey inv item ((lookup? inv item).getD 0 + qty))

/-- `remove_item(item, qty)` (lines 52-79), with the source's exact
check order: empty item, non-positive qty, absent key, insufficient
stock; then `stock_data[item] -= qty` and deletion when the new value is
`<= 0`. -/
def remove_item (item : String) (qty : Qty) (inv : Inventory) :
    Except InvError Inventory :=
  if item = "" then
    .error (.typeError "item must be a non-empty string")
  else if qty ≤ 0 then
    .error (.valueError "qty must be a positive number to remove")
  else
    match lookup? inv item with
    | none => .error (.keyError ("Item " ++ item ++ " not found in inventory"))
    | some cur =>
      if cur < qty then
        .error (.valueError ("Not enough " ++ item ++ " in stock"))
      else
        let inv' := setKey inv item (cur - qty)
        .ok (if cur - qty ≤ 0 then delKey inv' item else inv')

/-- `get_qty(item)` (lines 82-86). -/
def get_qty (item : String) (inv : Inventory) : Except InvError Qty :=
  if item = "" then
    .error (.typeError "item must be a non-empty string")
  else
    .ok ((lookup? inv item).getD 0)

/-- `check_low_items(threshold)` (lines 138-142): the list comprehension
`[name for name, qty in stock_data.items() if qty < threshold]`. -/
def check_low_items (threshold : Qty) (inv : Inventory) : List String :=
  (inv.filter (fun p => p.2 < threshold)).map Prod.fst

/-- A JSON value as produced by `json.load`.  Object keys are strings
(as `json.load` always yields), so the `k = str(k)` coercion at line 107
is the identity on them. -/
inductive JVal where
  | jnum (q : Qty)
  | jbool (b : Bool)
  | jstr (s : String)
  | jnull
  | jarr (xs : List JVal)
  | jobj (fields : List (String × JVal))
deriving Repr

/-- The values `isinstance(v, (int, float))` accepts at line 108:
numbers, and Python booleans (a `bool` is a subclass of `int`, compared
and stored as 1 or 0). -/
def toNum : JVal → Option Qty
  | .jnum q => some q
  | .jbool b => some (if b then 1 else 0)
  | _ => none

/-- Outcome of `open(file)` + `json.load(f)` in `load_data`:
`FileNotFoundError`, `json.JSONDecodeError`, or a parsed value. -/
inductive FileRead where
  | missing
  | badJSON
  | parsed (v : JVal)

/-- The loop at lines 104-112: for each key/value pair, insert when the
value is numeric, skip (with a logged warning) otherwise.  `acc` is the
store being repopulated after `stock_data.clear()`. -/
def loadEntries : List (String × JVal) → Inventory → Inventory
  | [], acc => acc
  | (k, v) :: rest, acc =>
    match toNum v with
    | some q => loadEntries rest (setKey acc k q)
    | none => loadEntries rest acc

/-- `load_data(file)` (lines 89-116): a missing file and malformed JSON
are recovered with a log message and no state change; a parsed non-dict
root returns early with no state change; a parsed dict clears the store
and repopulates it entry by entry. -/
def load_data (r : FileRead) (inv : Inventory) : Inventory :=
  match r with
  | .missing => inv
  | .badJSON => inv
  | .parsed v =>
    match v with
    | .jobj fields => loadEntries fields []
    | _ => inv

/-- `save_data(file)` (lines 119-126): `json.dump(stock_data, f)`
serializes the mapping verbatim, in insertion order. -/
def save_data (inv : Inventory) : JVal :=
  .jobj (inv.map (fun p => (p.1, .jnum p.2)))

/-- A raising call leaves the caller's `stock_data` as it was: in the
source every `raise` precedes the store mutation. -/
def tryOp (r : Except InvError Inventory) (inv : Inventory) : Inventory :=
  match r with
  | .ok inv' => inv'
  | .error _ => inv

/-- One public mutating call, for reasoning about call sequences. -/
inductive Op where
  | add (item : String) (qty : Qty)
  | remove (item : String) (qty : Qty)
  | load (r : FileRead)

/-- Effect of one call on the store (exceptions caught by the caller). -/
def applyOp (inv : Inventory) : Op → Inventory
  | .add item qty => tryOp (add_item item qty inv) inv
  | .remove item qty => tryOp (remove_item item qty inv) inv
  | .load r => load_data r inv

/-- Effect of a sequence of public calls on the store. -/
def runOps (inv : Inventory) (ops : List Op) : Inventory :=
  ops.foldl applyOp inv

/-- State-transformer form of `get_qty`: the pair (store after the
call, result).  The body of `get_qty` contains no assignment to
`stock_data`, so both the raising and the returning branch leave the
incoming store. -/
def get_qtyS (item : String) (inv : Inventory) :
    Inventory × Except InvError Qty :=
  if item = "" then
    (inv, .error (.typeError "item must be a non-empty string"))
  else
    (inv, .ok ((lookup? inv item).getD 0))

/-- `check_low_items` with a dynamically typed threshold: Python's
`isinstance` check at line 140 rejects a non-numeric argument with
`TypeError`. -/
def check_low_items_dyn (threshold : JVal) (inv : Inventory) :
    Except InvError (List String) :=
  match toNum threshold with
  | some t => .ok (check_low_items t inv)
  | none => .error (.typeError "threshold must be numeric")

/-- State-transformer form of `check_low_items`: its body contains no
assignment to `stock_data`, so the store after the call is the incoming
store in every branch, raising or not. -/
def check_low_itemsS (threshold : JVal) (inv : Inventory) :
    Inventory × Except InvError (List String) :=
  (inv, check_low_items_dyn threshold inv)

/-- Is the parsed JSON root a dict? (the `isinstance(data, dict)` test
at line 98). -/
def JVal.isObj : JVal → Bool
  | .jobj _ => true
  | _ => false

/-! ## Lemmas about the dict operations -/

theorem lookup?_mem {inv : Inventory} {k : String} {q : Qty}
    (h : lookup? inv k = some q) : (k, q) ∈ inv := by
  induction inv with
  | nil => simp [lookup?] at h
  | cons p rest ih =>
    rw [lookup?] at h
    split at h
    · rename_i hpk
      injection h with hbq
      rw [List.mem_cons, Prod.ext_iff]
      exact Or.inl ⟨hpk.symm, hbq.symm⟩
    · exact List.mem_cons_of_mem _ (ih h)

theorem lookup?_eq_none {inv : Inventory} {k : String}
    (h : k ∉ inv.map Prod.fst) : lookup? inv k = none := by
  induction inv with
  | nil => rfl
  | cons p rest ih =>
    rw [lookup?]
    simp only [List.map_cons, List.mem_cons] at h
    push_neg at h
    rw [if_neg (Ne.symm h.1)]
    exact ih h.2

theorem mem_setKey {inv : Inventory} {k : String} {v : Qty} {p : String × Qty}
    (h : p ∈ setKey inv k v) : p = (k, v) ∨ p ∈ inv := by
  induction inv with
  | nil => simpa [setKey] using h
  | cons q rest ih =>
    rw [setKey] at h
    split at h
    · rcases List.mem_cons.mp h with h | h
      · exact Or.inl h
      · exact Or.inr (List.mem_cons_of_mem _ h)
    · rcases List.mem_cons.mp h with h | h
      · exact Or.inr (h ▸ List.mem_cons_self _ _)
      · rcases ih h with h | h
        · exact Or.inl h
        · exact Or.inr (List.mem_cons_of_mem _ h)

theorem lookup?_setKey_self (inv : Inventory) (k : String) (v : Qty) :
    lookup? (setKey inv k v) k = some v := by
  induction inv with
  | nil => simp [setKey, lookup?]
  | cons p rest ih =>
    rw [setKey]
    split
    · simp [lookup?]
    · rename_i hpk
      rw [lookup?, if_neg hpk]
      exact ih

theorem setKey_absent {inv : Inventory} {k : String} (v : Qty)
    (h : lookup? inv k = none) : setKey inv k v = inv ++ [(k, v)] := by
  induction inv with
  | nil => rfl
  | cons p rest ih =>
    rw [lookup?] at h
    split at h
    · cases h
    · rename_i hpk
      rw [setKey, if_neg hpk, ih h]
      rfl

theorem keys_setKey (inv : Inventory) (k : String) (v : Qty) :
    (setKey inv k v).map Prod.fst = inv.map Prod.fst
      ∨ (setKey inv k v).map Prod.fst = inv.map Prod.fst ++ [k] := by
  induction inv with
  | nil => right; rfl
  | cons p rest ih =>
    rw [setKey]
    split
    · rename_i hpk
      left
      simp [hpk]
    · rcases ih with h | h
      · left; simp [h]
      · right; simp [h]

theorem keysNodup_setKey {inv : Inventory} {k : String} {v : Qty}
    (hn : KeysNodup inv) : KeysNodup (setKey inv k v) := by
  induction inv with
  | nil => simp [setKey, KeysNodup]
  | cons p rest ih =>
    rw [KeysNodup, List.map_cons, List.nodup_cons] at hn
    rw [setKey]
    split
    · rename_i hpk
      rw [KeysNodup, List.map_cons, List.nodup_cons]
      exact ⟨hpk ▸ hn.1, hn.2⟩
    · rename_i hpk
      rw [KeysNodup, List.map_cons, List.nodup_cons]
      refine ⟨fun hmem => ?_, ih hn.2⟩
      rcases keys_setKey rest k v with h | h
      · exact hn.1 (h ▸ hmem)
      · rw [h] at hmem
        rcases List.mem_append.mp hmem with h' | h'
        · exact hn.1 h'
        · simp at h'
          exact hpk h'

theorem mem_delKey {inv : Inventory} {k : String} {p : String × Qty}
    (h : p ∈ delKey inv k) : p ∈ inv := by
  induction inv with
  | nil => simp [delKey] at h
  | cons q rest ih =>
    rw [delKey] at h
    split at h
    · exact List.mem_cons_of_mem _ h
    · rcases List.mem_cons.mp h with h | h
      · exact h ▸ List.mem_cons_self _ _
      · exact List.mem_cons_of_mem _ (ih h)

theorem lookup?_delKey_self {inv : Inventory} {k : String}
    (hn : KeysNodup inv) : lookup? (delKey inv k) k = none := by
  induction inv with
  | nil => rfl
  | cons p rest ih =>
    rw [KeysNodup, List.map_cons, List.nodup_cons] at hn
    rw [delKey]
    split
    · rename_i hpk
      exact lookup?_eq_none (hpk ▸ hn.1)
    · rename_i hpk
      rw [lookup?, if_neg hpk]
      exact ih hn.2

theorem mem_loadEntries {fields : List (String × JVal)} {acc : Inventory}
    {p : String × Qty} (h : p ∈ loadEntries fields acc) :
    p ∈ acc ∨ ∃ kv ∈ fields, kv.1 = p.1 ∧ toNum kv.2 = some p.2 := by
  induction fields generalizing acc with
  | nil => exact Or.inl h
  | cons kv rest ih =>
    obtain ⟨k, v⟩ := kv
    rw [loadEntries] at h
    cases htn : toNum v with
    | none =>
      rw [htn] at h
      rcases ih h with h | ⟨kv', hkv', h1, h2⟩
      · exact Or.inl h
      · exact Or.inr ⟨kv', List.mem_cons_of_mem _ hkv', h1, h2⟩
    | some q =>
      rw [htn] at h
      rcases ih h with h | ⟨kv', hkv', h1, h2⟩
      · rcases mem_setKey h with h | h
        · exact Or.inr ⟨(k, v), List.mem_cons_self _ _, by rw [h], by rw [h, htn]⟩
        · exact Or.inl h
      · exact Or.inr ⟨kv', List.mem_cons_of_mem _ hkv', h1, h2⟩

theorem loadEntries_eq {fields : List (String × JVal)} {acc : Inventory}
    (hnodup : (fields.map Prod.fst).Nodup)
    (hdis : ∀ kv ∈ fields, kv.1 ∉ acc.map Prod.fst) :
    loadEntries fields acc
      = acc ++ fields.filterMap (fun kv => (toNum kv.2).map (fun q => (kv.1, q))) := by
  induction fields generalizing acc with
  | nil => simp [loadEntries]
  | cons kv rest ih =>
    obtain ⟨k, v⟩ := kv
    rw [List.map_cons, List.nodup_cons] at hnodup
    rw [loadEntries, List.filterMap_cons]
    cases htn : toNum v with
    | none =>
      simp only
      exact ih hnodup.2 (fun kv hkv => hdis kv (List.mem_cons_of_mem _ hkv))
    | some q =>
      simp only [Option.map_some']
      rw [setKey_absent q (lookup?_eq_none (hdis (k, v) (List.mem_cons_self _ _)))]
      rw [ih hnodup.2 ?_]
      · rw [List.append_assoc]
        rfl
      · intro kv hkv
        rw [List.map_append, List.mem_append]
        rintro (hmem | hmem)
        · exact hdis kv (List.mem_cons_of_mem _ hkv) hmem
        · simp at hmem
          have hk : kv.1 ∈ rest.map Prod.fst := List.mem_map_of_mem Prod.fst hkv
          rw [hmem] at hk
          exact hnodup.1 hk

theorem mem_check_low_items {inv : Inventory} {t : Qty} {name : String} :
    name ∈ check_low_items t inv ↔ ∃ q, (name, q) ∈ inv ∧ q < t := by
  simp only [check_low_items, List.mem_map, List.mem_filter, decide_eq_true_eq]
  constructor
  · rintro ⟨⟨a, b⟩, ⟨hmem, hlt⟩, rfl⟩
    exact ⟨b, hmem, hlt⟩
  · rintro ⟨q, hmem, hlt⟩
    exact ⟨(name, q), ⟨hmem, hlt⟩, rfl⟩

theorem check_low_items_sublist (inv : Inventory) (t : Qty) :
    (check_low_items t inv).Sublist (inv.map Prod.fst) :=
  List.Sublist.map Prod.fst (List.filter_sublist inv)

theorem lookup?_of_mem {inv : Inventory} {k : String} {q : Qty}
    (hn : KeysNodup inv) (h : (k, q) ∈ inv) : lookup? inv k = some q := by
  induction inv with
  | nil => cases h
  | cons p rest ih =>
    rw [KeysNodup, List.map_cons, List.nodup_cons] at hn
    rcases List.mem_cons.mp h with h | h
    · rw [← h, lookup?, if_pos rfl]
    · rw [lookup?]
      split
      · rename_i hpk
        exact absurd (hpk ▸ List.mem_map_of_mem Prod.fst h) hn.1
      · exact ih hn.2 h

/-! ## The non-negativity invariant over call sequences -/

/-- Every entry held in the store is non-negative. -/
def NonNegInv (inv : Inventory) : Prop := ∀ p ∈ inv, 0 ≤ p.2

/-- The spec's stated invariant: every entry held is strictly
positive. -/
def PosInv (inv : Inventory) : Prop := ∀ p ∈ inv, 0 < p.2

/-- A call whose loaded file (when it is a successfully parsed object)
holds only non-negative numeric values; `add_item` and `remove_item`
calls are unrestricted. -/
def OpNonNeg : Op → Prop
  | .load (.parsed (.jobj fields)) =>
      ∀ kv ∈ fields, ∀ q : Qty, toNum kv.2 = some q → 0 ≤ q
  | _ => True

theorem nonNeg_applyOp {inv : Inventory} {op : Op}
    (h : NonNegInv inv) (hop : OpNonNeg op) : NonNegInv (applyOp inv op) := by
  cases op with
  | add item qty =>
    show NonNegInv (tryOp (add_item item qty inv) inv)
    rw [add_item]
    by_cases h1 : item = ""
    · rw [if_pos h1]; exact h
    rw [if_neg h1]
    by_cases h2 : qty < 0
    · rw [if_pos h2]; exact h
    rw [if_neg h2]
    intro p hp
    rcases mem_setKey hp with hp | hp
    · rw [hp]
      cases hl : lookup? inv item with
      | none => simpa using not_lt.mp h2
      | some c => exact add_nonneg (h _ (lookup?_mem hl)) (not_lt.mp h2)
    · exact h p hp
  | remove item qty =>
    show NonNegInv (tryOp (remove_item item qty inv) inv)
    rw [remove_item]
    by_cases h1 : item = ""
    · rw [if_pos h1]; exact h
    rw [if_neg h1]
    by_cases h2 : qty ≤ 0
    · rw [if_pos h2]; exact h
    rw [if_neg h2]
    cases hl : lookup? inv item with
    | none => exact h
    | some cur =>
      dsimp only
      by_cases h3 : cur < qty
      · rw [if_pos h3]; exact h
      rw [if_neg h3]
      have hnn : (0:Qty) ≤ cur - qty := sub_nonneg.mpr (not_lt.mp h3)
      intro p hp
      by_cases h4 : cur - qty ≤ 0
      · rw [if_pos h4] at hp
        rcases mem_setKey (mem_delKey hp) with hp | hp
        · rw [hp]; exact hnn
        · exact h p hp
      · rw [if_neg h4] at hp
        rcases mem_setKey hp with hp | hp
        · rw [hp]; exact hnn
        · exact h p hp
  | load r =>
    cases r with
    | missing => exact h
    | badJSON => exact h
    | parsed v =>
      cases v with
      | jobj fields =>
        intro p hp
        rcases mem_loadEntries hp with hp | ⟨kv, hkv, _, h2⟩
        · simp at hp
        · exact hop kv hkv p.2 h2
      | jnum q => exact h
      | jbool b => exact h
      | jstr s => exact h
      | jnull => exact h
      | jarr xs => exact h

/-! ## Claims -/

/-- C1 (as stated, refuted): the claim that after any sequence of
public calls every held entry is strictly positive fails already at the
single call `add_item("x", 0)`, which creates the entry `("x", 0)` —
the qty `0` passes the `qty < 0` check and is stored. -/
theorem c1_strict_positive_counterexample :
    ¬ PosInv (runOps [] [Op.add "x" 0]) := by
  intro h
  have hx : ("x", (0:Qty)) ∈ runOps [] [Op.add "x" 0] := by
    simp [runOps, applyOp, add_item, tryOp, setKey, lookup?]
  exact absurd (h _ hx) (lt_irrefl 0)

/-- C1 (amended): after any sequence of add_item, remove_item and
load_data calls starting from a store whose entries are non-negative,
in which every successfully loaded JSON object holds only non-negative
numeric values, every entry held in the inventory is non-negative
(zero entries can arise, e.g. from `add_item(item, 0)`). -/
theorem c1_nonneg_invariant (ops : List Op) (inv : Inventory)
    (h0 : NonNegInv inv) (hops : ∀ op ∈ ops, OpNonNeg op) :
    NonNegInv (runOps inv ops) := by
  induction ops generalizing inv with
  | nil => exact h0
  | cons op rest ih =>
    exact ih (applyOp inv op)
      (nonNeg_applyOp h0 (hops op (List.mem_cons_self _ _)))
      (fun o ho => hops o (List.mem_cons_of_mem _ ho))

/-- C1 witness: a concrete run — two adds, a removal, then a load of a
non-negative file — ends in a non-negative store. -/
theorem c1_nonneg_invariant_witness :
    NonNegInv (runOps []
      [Op.add "apple" 10, Op.remove "apple" 3,
       Op.load (.parsed (.jobj [("pear", .jnum 4)]))]) :=
  c1_nonneg_invariant _ _
    (by intro p hp; simp at hp)
    (by
      intro op hop
      simp only [List.mem_cons, List.not_mem_nil, or_false] at hop
      rcases hop with rfl | rfl | rfl
      · trivial
      · trivial
      · rintro ⟨k, v⟩ hkv q hq
        simp only [List.mem_cons, List.not_mem_nil, or_false] at hkv
        rw [hkv] at hq
        simp only [toNum, Option.some.injEq] at hq
        rw [← hq]
        exact zero_le_four)

/-- C2: saving an inventory with pairwise-distinct keys and
non-negative numeric entries and then loading the same file reproduces
the same mapping, whatever the store held before the load. -/
theorem c2_save_load_roundtrip (inv inv₀ : Inventory)
    (hnodup : KeysNodup inv) (_hnn : ∀ p ∈ inv, 0 ≤ p.2) :
    load_data (.parsed (save_data inv)) inv₀ = inv := by
  show loadEntries (inv.map fun p => (p.1, JVal.jnum p.2)) [] = inv
  rw [loadEntries_eq ?hn ?hd]
  · rw [List.nil_append, List.filterMap_map]
    have hfn : ((fun kv : String × JVal => (toNum kv.2).map (fun q => (kv.1, q)))
        ∘ fun p : String × Qty => (p.1, JVal.jnum p.2)) = some := by
      funext p
      simp [toNum]
    rw [hfn, List.filterMap_some]
  case hn => simpa [List.map_map, Function.comp_def] using hnodup
  case hd => simp

/-- C2 witness: a concrete two-item inventory survives the round trip,
replacing an unrelated prior store. -/
theorem c2_save_load_roundtrip_witness :
    load_data (.parsed (save_data [("apple", 1), ("banana", 0)])) [("x", 1)]
      = [("apple", 1), ("banana", 0)] :=
  c2_save_load_roundtrip _ _ (by simp only [KeysNodup]; decide)
    (by
      intro p hp
      simp only [List.mem_cons, List.not_mem_nil, or_false] at hp
      rcases hp with rfl | rfl
      · exact zero_le_one
      · exact le_refl 0)

/-- C3: for a non-empty item and qty ≥ 0, add_item succeeds; a
subsequent get_qty returns the prior stored quantity (0 when the item
was absent) plus qty, and the item is a key of the resulting mapping. -/
theorem c3_add_then_get (item : String) (qty : Qty) (inv : Inventory)
    (hitem : item ≠ "") (hqty : 0 ≤ qty) :
    ∃ inv', add_item item qty inv = .ok inv'
      ∧ get_qty item inv' = .ok ((lookup? inv item).getD 0 + qty)
      ∧ item ∈ inv'.map Prod.fst := by
  refine ⟨setKey inv item ((lookup? inv item).getD 0 + qty), ?_, ?_, ?_⟩
  · rw [add_item, if_neg hitem, if_neg (not_lt.mpr hqty)]
  · rw [get_qty, if_neg hitem, lookup?_setKey_self]
    rfl
  · exact List.mem_map_of_mem Prod.fst (lookup?_mem (lookup?_setKey_self inv item _))

/-- C3 witness: adding 0 of an already-present item. -/
theorem c3_add_then_get_witness :
    ∃ inv', add_item "apple" 0 [("apple", 1)] = .ok inv'
      ∧ get_qty "apple" inv' = .ok ((lookup? [("apple", 1)] "apple").getD 0 + 0)
      ∧ "apple" ∈ inv'.map Prod.fst :=
  c3_add_then_get "apple" 0 [("apple", 1)] (by decide) (le_refl 0)

/-- C4: removing 0 < qty ≤ stock from a present item succeeds and
leaves the stored quantity decreased by qty; when the result is ≤ 0
(i.e. qty was the full stock) the entry is deleted, and get_qty then
returns 0 = s - qty. -/
theorem c4_remove_then_get (item : String) (qty s : Qty) (inv : Inventory)
    (hitem : item ≠ "") (hnodup : KeysNodup inv)
    (hs : lookup? inv item = some s) (h0 : 0 < qty) (hle : qty ≤ s) :
    ∃ inv', remove_item item qty inv = .ok inv'
      ∧ get_qty item inv' = .ok (s - qty)
      ∧ (s - qty ≤ 0 → lookup? inv' item = none) := by
  have hsub : (0:Qty) ≤ s - qty := sub_nonneg.mpr hle
  by_cases hz : s - qty ≤ 0
  · have hz0 : s - qty = 0 := le_antisymm hz hsub
    refine ⟨delKey (setKey inv item (s - qty)) item, ?_, ?_, fun _ => ?_⟩
    · rw [remove_item, if_neg hitem, if_neg (not_le.mpr h0), hs]
      dsimp only
      rw [if_neg (not_lt.mpr hle), if_pos hz]
    · rw [get_qty, if_neg hitem,
        lookup?_delKey_self (keysNodup_setKey hnodup), hz0]
      rfl
    · exact lookup?_delKey_self (keysNodup_setKey hnodup)
  · refine ⟨setKey inv item (s - qty), ?_, ?_, fun h => absurd h hz⟩
    · rw [remove_item, if_neg hitem, if_neg (not_le.mpr h0), hs]
      dsimp only
      rw [if_neg (not_lt.mpr hle), if_neg hz]
    · rw [get_qty, if_neg hitem, lookup?_setKey_self]
      rfl

/-- C4 witness: removing the full stock of 1 deletes the entry. -/
theorem c4_remove_then_get_witness :
    ∃ inv', remove_item "apple" 1 [("apple", 1)] = .ok inv'
      ∧ get_qty "apple" inv' = .ok (1 - 1)
      ∧ ((1:Qty) - 1 ≤ 0 → lookup? inv' "apple" = none) :=
  c4_remove_then_get "apple" 1 1 [("apple", 1)] (by decide) (by simp only [KeysNodup]; decide)
    rfl one_pos (le_refl 1)

/-- C5: under remove_item's preconditions (non-empty item, positive
qty), an absent item is reported with KeyError and a present item with
qty above its stock with ValueError; in both cases the caught call
leaves the store exactly as it was. -/
theorem c5_remove_error_cases (item : String) (qty s : Qty) (inv : Inventory)
    (hitem : item ≠ "") (h0 : 0 < qty) :
    (lookup? inv item = none →
      (∃ msg, remove_item item qty inv = .error (.keyError msg))
        ∧ applyOp inv (.remove item qty) = inv)
    ∧ (lookup? inv item = some s → s < qty →
      (∃ msg, remove_item item qty inv = .error (.valueError msg))
        ∧ applyOp inv (.remove item qty) = inv) := by
  constructor
  · intro habs
    have he : remove_item item qty inv
        = .error (.keyError ("Item " ++ item ++ " not found in inventory")) := by
      rw [remove_item, if_neg hitem, if_neg (not_le.mpr h0), habs]
    refine ⟨⟨_, he⟩, ?_⟩
    show tryOp (remove_item item qty inv) inv = inv
    rw [he]
    rfl
  · intro hs hlt
    have he : remove_item item qty inv
        = .error (.valueError ("Not enough " ++ item ++ " in stock")) := by
      rw [remove_item, if_neg hitem, if_neg (not_le.mpr h0), hs]
      dsimp only
      rw [if_pos hlt]
    refine ⟨⟨_, he⟩, ?_⟩
    show tryOp (remove_item item qty inv) inv = inv
    rw [he]
    rfl

/-- C5 witness: removing from an empty store raises KeyError; removing
2 when 1 is in stock raises ValueError; the store is unchanged. -/
theorem c5_remove_error_cases_witness :
    ((∃ msg, remove_item "ghost" 1 [] = .error (.keyError msg))
      ∧ applyOp [] (.remove "ghost" 1) = [])
    ∧ ((∃ msg, remove_item "apple" 2 [("apple", 1)] = .error (.valueError msg))
      ∧ applyOp [("apple", 1)] (.remove "apple" 2) = [("apple", 1)]) :=
  ⟨(c5_remove_error_cases "ghost" 1 0 [] (by decide) one_pos).1 rfl,
   (c5_remove_error_cases "apple" 2 1 [("apple", 1)] (by decide) two_pos).2
      rfl one_lt_two⟩

/-- C6: load_data leaves the store unchanged when the file is missing,
when the JSON is malformed, and when the parsed root is not an object;
the store is cleared only on the successful-object path. -/
theorem c6_load_failure_frame (inv : Inventory) (v : JVal)
    (hv : v.isObj = false) :
    load_data .missing inv = inv ∧ load_data .badJSON inv = inv
      ∧ load_data (.parsed v) inv = inv := by
  refine ⟨rfl, rfl, ?_⟩
  cases v with
  | jobj fields => simp [JVal.isObj] at hv
  | jnum q => rfl
  | jbool b => rfl
  | jstr s => rfl
  | jnull => rfl
  | jarr xs => rfl

/-- C6 witness: a one-item store survives all three failure shapes
(here the non-object root is the number 3). -/
theorem c6_load_failure_frame_witness :
    load_data .missing [("apple", 1)] = [("apple", 1)]
      ∧ load_data .badJSON [("apple", 1)] = [("apple", 1)]
      ∧ load_data (.parsed (.jnum 3)) [("apple", 1)] = [("apple", 1)] :=
  c6_load_failure_frame [("apple", 1)] (.jnum 3) rfl

/-- C7: successfully loading a parsed JSON object with distinct keys
yields exactly its numeric-valued entries, in order, whatever the prior
store held; a non-numeric value skips only its own entry. -/
theorem c7_load_object_filter (fields : List (String × JVal)) (inv : Inventory)
    (hnodup : (fields.map Prod.fst).Nodup) :
    load_data (.parsed (.jobj fields)) inv
      = fields.filterMap (fun kv => (toNum kv.2).map (fun q => (kv.1, q))) := by
  show loadEntries fields [] = _
  rw [loadEntries_eq hnodup (by simp)]
  rfl

/-- C7 witness: the middle entry has a string value and is skipped; the
two numeric entries around it are loaded, replacing the prior store. -/
theorem c7_load_object_filter_witness :
    load_data (.parsed (.jobj
        [("a", .jnum 3), ("b", .jstr "oops"), ("c", .jnum 2)])) [("z", 9)]
      = [("a", 3), ("c", 2)] :=
  (c7_load_object_filter [("a", .jnum 3), ("b", .jstr "oops"), ("c", .jnum 2)]
    [("z", 9)] (by decide)).trans rfl

/-- C8: check_low_items returns exactly the names whose stored quantity
is strictly below the threshold, as a subsequence of the keys in
insertion order; the dynamically typed call wraps this for a numeric
threshold and raises TypeError on a non-numeric one. -/
theorem c8_check_low_items_spec (inv : Inventory) (t : Qty)
    (hnodup : KeysNodup inv) :
    (∀ name, name ∈ check_low_items t inv
        ↔ ∃ q, lookup? inv name = some q ∧ q < t)
    ∧ (check_low_items t inv).Sublist (inv.map Prod.fst)
    ∧ check_low_items_dyn (.jnum t) inv = .ok (check_low_items t inv)
    ∧ ∀ jv : JVal, toNum jv = none →
        check_low_items_dyn jv inv
          = .error (.typeError "threshold must be numeric") := by
  refine ⟨fun name => ?_, check_low_items_sublist inv t, rfl, fun jv hjv => ?_⟩
  · rw [mem_check_low_items]
    constructor
    · rintro ⟨q, hmem, hlt⟩
      exact ⟨q, lookup?_of_mem hnodup hmem, hlt⟩
    · rintro ⟨q, hl, hlt⟩
      exact ⟨q, lookup?_mem hl, hlt⟩
  · rw [check_low_items_dyn, hjv]

/-- C8 witness: the spec's own example inventory at threshold 5. -/
theorem c8_check_low_items_spec_witness :
    (∀ name, name ∈ check_low_items 5 [("apple", 10), ("banana", 2)]
        ↔ ∃ q, lookup? [("apple", 10), ("banana", 2)] name = some q ∧ q < 5)
    ∧ (check_low_items 5 [("apple", 10), ("banana", 2)]).Sublist
        (([("apple", 10), ("banana", 2)] : Inventory).map Prod.fst)
    ∧ check_low_items_dyn (.jnum 5) [("apple", 10), ("banana", 2)]
        = .ok (check_low_items 5 [("apple", 10), ("banana", 2)])
    ∧ ∀ jv : JVal, toNum jv = none →
        check_low_items_dyn jv [("apple", 10), ("banana", 2)]
          = .error (.typeError "threshold must be numeric") :=
  c8_check_low_items_spec [("apple", 10), ("banana", 2)] 5 (by simp only [KeysNodup]; decide)

/-- C9: add_item(item, 0) on an absent item succeeds and creates the
entry (item, 0); the item then appears in check_low_items t for every
threshold t > 0. -/
theorem c9_add_zero_creates (item : String) (inv : Inventory) (t : Qty)
    (hitem : item ≠ "") (habs : lookup? inv item = none) (ht : 0 < t) :
    ∃ inv', add_item item 0 inv = .ok inv'
      ∧ lookup? inv' item = some 0
      ∧ item ∈ inv'.map Prod.fst
      ∧ item ∈ check_low_items t inv' := by
  have h0 : (lookup? inv item).getD 0 + 0 = 0 := by
    rw [habs, Option.getD_none, add_zero]
  refine ⟨setKey inv item 0, ?_, ?_, ?_, ?_⟩
  · rw [add_item, if_neg hitem, if_neg (lt_irrefl 0), h0]
  · rw [lookup?_setKey_self]
  · exact List.mem_map_of_mem Prod.fst (lookup?_mem (lookup?_setKey_self inv item 0))
  · rw [mem_check_low_items]
    exact ⟨0, lookup?_mem (lookup?_setKey_self inv item 0), ht⟩

/-- C9 witness: a fresh item added with quantity 0 shows up below
threshold 1. -/
theorem c9_add_zero_creates_witness :
    ∃ inv', add_item "widget" 0 [] = .ok inv'
      ∧ lookup? inv' "widget" = some 0
      ∧ "widget" ∈ inv'.map Prod.fst
      ∧ "widget" ∈ check_low_items 1 inv' :=
  c9_add_zero_creates "widget" [] 1 (by decide) rfl one_pos

/-- C10: the query operations are observationally pure: the store
component of their state-transformer form equals the incoming store for
every argument, including ones on which they raise (empty item name,
non-numeric threshold). -/
theorem c10_queries_pure (item : String) (jv : JVal) (inv : Inventory) :
    (get_qtyS item inv).1 = inv ∧ (check_low_itemsS jv inv).1 = inv := by
  constructor
  · rw [get_qtyS]
    split <;> rfl
  · rfl
